import Mathlib

/-!
Shallow embedding of the pinned BPF map manager (`bpf/maps.go`) of the
felix repository, together with theorems settling the specification
claims.  External effects (filesystem, `bpftool` invocations, kernel
calls) are modelled by an explicit environment whose fields hold the
results those calls would return, and every function additionally
returns the list of external calls it performed, so that properties of
the form "operation X is never invoked" become statements about that
trace.
-/

namespace Felix

/-- Go `error` values as they occur in `maps.go`: `notExist` stands for
`os.ErrNotExist` (the value recognised by `os.IsNotExist`), `exitError`
for an `*exec.ExitError` carrying captured stderr, and `other` for any
other error (including errors produced by `errors.Wrap`/`errors.Errorf`,
which `os.IsNotExist` does not recognise). -/
inductive GoError where
  | notExist : GoError
  | exitError (stderr : String) : GoError
  | other (msg : String) : GoError
  deriving DecidableEq

/-- Rendering of a Go error to text, used when wrapping. -/
def GoError.text : GoError → String
  | .notExist => "file does not exist"
  | .exitError s => s
  | .other m => m

/-- Embeds `errors.Wrap(err, msg)` for a non-nil `err`: produces a new error
whose message prefixes `msg`; the result is never `os.ErrNotExist`. -/
def wrapErr (msg : String) (e : GoError) : GoError :=
  GoError.other (msg ++ ": " ++ e.text)

/-- Embeds `strings.Contains(s, sub)`: whether `sub` occurs as a contiguous
substring of `s` (byte/character level; all strings involved are
ASCII). -/
def strContains (s sub : String) : Bool :=
  decide (sub.toList <:+: s.toList)

/-- Embeds `MapParameters` from `maps.go`: the static identity of a map. -/
structure MapParameters where
  Filename : String
  «Type» : String
  KeySize : Int
  ValueSize : Int
  MaxEntries : Int
  Name : String
  Flags : Int
  Version : Int
  deriving DecidableEq

/-- Embeds `versionedStr(ver, str)`: the identity for versions at most 1,
otherwise the string followed by the decimal rendering of the version
(as `fmt.Sprintf("%s%d", str, ver)` produces). -/
def versionedStr (ver : Int) (str : String) : String :=
  if ver ≤ 1 then str else str ++ toString ver

/-- Embeds `(*MapParameters).versionedName`. -/
def MapParameters.versionedName (mp : MapParameters) : String :=
  versionedStr mp.Version mp.Name

/-- Embeds `(*MapParameters).versionedFilename`. -/
def MapParameters.versionedFilename (mp : MapParameters) : String :=
  versionedStr mp.Version mp.Filename

/-- Embeds `MapContext`: the process-wide repinning toggle. -/
structure MapContext where
  RepinningEnabled : Bool
  deriving DecidableEq

/-- Embeds `PinnedMap`: the mutable handle.  `fd` is the stored kernel
descriptor (a `MapFD`, numeric), meaningful only when `fdLoaded`. -/
structure PinnedMap where
  context : MapContext
  params : MapParameters
  fdLoaded : Bool
  fd : Nat
  perCPU : Bool
  deriving DecidableEq

/-- Embeds `unix.BPF_OBJ_NAME_LEN`: kernel object-name length limit. -/
def BPF_OBJ_NAME_LEN : Nat := 16

/-- Embeds `(*MapContext).NewPinnedMap`: panics (here: `none`) when the
versioned name does not fit the kernel limit, otherwise builds an
unopened handle whose `perCPU` flag records whether the kernel type
contains the `"percpu"` marker. -/
def MapContext.NewPinnedMap (c : MapContext) (params : MapParameters) :
    Option PinnedMap :=
  if params.versionedName.utf8ByteSize ≥ BPF_OBJ_NAME_LEN then
    none
  else
    some { context := c
           params := params
           fdLoaded := false
           fd := 0
           perCPU := strContains params.«Type» "percpu" }

/-- Embeds `(*PinnedMap).GetName`. -/
def PinnedMap.GetName (b : PinnedMap) : String :=
  b.params.versionedName

/-- Embeds `(*PinnedMap).Path`. -/
def PinnedMap.Path (b : PinnedMap) : String :=
  b.params.versionedFilename

/-- Embeds `(*PinnedMap).MapFD`: panics (modelled as `Except.error` carrying
the panic message) when the handle was never ensured. -/
def PinnedMap.MapFD (b : PinnedMap) : Except String Nat :=
  if b.fdLoaded then Except.ok b.fd
  else Except.error "MapFD() called without first calling EnsureExists()"

/-- Embeds `(*PinnedMap).Close`: returns the close result of the stored fd
(environment-supplied) and resets the handle. -/
def PinnedMap.Close (closeErr : Option GoError) (b : PinnedMap) :
    PinnedMap × Option GoError :=
  ({ b with fdLoaded := false, fd := 0 }, closeErr)

/-- Embeds `bpftoolMapMeta`: one `{id, name}` record of `bpftool map list -j`. -/
structure bpftoolMapMeta where
  ID : Int
  Name : String
  deriving DecidableEq

/-- One external call performed by the manager, recorded in a trace:
mounting bpffs, creating the pin directory, `os.Stat`, `bpftool map
list`, `bpftool map pin id <id> <path>`, `bpftool map create` with all
its arguments, and `GetMapFDByPin`. -/
inductive ExtCall where
  | mount : ExtCall
  | mkdir : ExtCall
  | statCall (path : String) : ExtCall
  | mapList : ExtCall
  | pinById (id : Int) (path : String) : ExtCall
  | mapCreate (path kernelType : String) (keySize valueSize entries : Int)
      (name : String) (flags : Int) : ExtCall
  | openByPin (path : String) : ExtCall
  deriving DecidableEq

/-- Whether a call is an invocation of the external map-creation
interface (`bpftool map create`). -/
def ExtCall.isCreate : ExtCall → Bool
  | .mapCreate _ _ _ _ _ _ _ => true
  | _ => false

/-- Environment for `EnsureExists`: the results the external world
would return for each call.  `listOut` is the output and error of
`bpftool map list -j`; `listUnmarshal` is the behaviour of
`json.Unmarshal` (external library) on that output; `openRes` is the
`(fd, err)` pair `GetMapFDByPin` returns (the fd component is assigned
to the handle even when the error is non-nil, as in the source). -/
structure Env where
  mountErr : Option GoError
  mkdirErr : Option GoError
  statErr : Option GoError
  listOut : String
  listErr : Option GoError
  listUnmarshal : String → Except String (List bpftoolMapMeta)
  pinErr : Option GoError
  createErr : Option GoError
  openRes : Nat × Option GoError

/-- Embeds `RepinMap(name, filename)`: list the kernel registry, scan for the
first entry whose name equals `name`, and pin its id to `filename`;
returns `os.ErrNotExist` when no entry matches.  Exec and JSON failures
are wrapped (so never `notExist`); a pin failure is wrapped too, and a
nil pin result stays nil (`errors.Wrap(nil, _) == nil`). -/
def RepinMap (env : Env) (name : String) (filename : String) :
    Option GoError × List ExtCall :=
  match env.listErr with
  | some e => (some (wrapErr "bpftool map list failed" e), [.mapList])
  | none =>
    match env.listUnmarshal env.listOut with
    | .error e => (some (wrapErr "bpftool returned bad JSON" (.other e)), [.mapList])
    | .ok maps =>
      match maps.find? (fun m => m.Name == name) with
      | some m =>
        match env.pinErr with
        | some e =>
          (some (wrapErr "bpftool failed to repin map" e), [.mapList, .pinById m.ID filename])
        | none => (none, [.mapList, .pinById m.ID filename])
      | none => (some .notExist, [.mapList])

/-- Result of `EnsureExists`: the updated handle, the returned error
(`none` = nil), and the trace of external calls performed. -/
structure EnsureResult where
  state : PinnedMap
  error : Option GoError
  calls : List ExtCall
  deriving DecidableEq

/-- The `bpftool map create` call `EnsureExists` would issue for this
handle. -/
def PinnedMap.createCall (b : PinnedMap) : ExtCall :=
  .mapCreate b.params.versionedFilename b.params.«Type» b.params.KeySize
    b.params.ValueSize b.params.MaxEntries b.params.versionedName b.params.Flags

/-- Embeds `(*PinnedMap).EnsureExists`, translated statement by statement:
early return when already loaded; mount bpffs; create the pin
directory; stat the versioned pin path; on a not-found stat with
repinning enabled, run `RepinMap` (aborting on a non-not-found repin
error); then either open the existing/repinned pin, or create the map
and open the fresh pin.  `fdLoaded` is set only when `GetMapFDByPin`
returned a nil error, but its fd component is stored regardless. -/
def PinnedMap.EnsureExists (env : Env) (b : PinnedMap) : EnsureResult :=
  if b.fdLoaded then ⟨b, none, []⟩ else
  match env.mountErr with
  | some e => ⟨b, some e, [.mount]⟩
  | none =>
  match env.mkdirErr with
  | some e => ⟨b, some e, [.mount, .mkdir]⟩
  | none =>
    let path := b.params.versionedFilename
    let pre : List ExtCall := [.mount, .mkdir, .statCall path]
    let afterStat : Option GoError × List ExtCall ⊕ GoError × List ExtCall :=
      match env.statErr with
      | none => Sum.inl (none, pre)
      | some e =>
        if e ≠ GoError.notExist then Sum.inr (e, pre)
        else if b.context.RepinningEnabled then
          match RepinMap env b.params.versionedName path with
          | (none, rcalls) => Sum.inl (none, pre ++ rcalls)
          | (some re, rcalls) =>
            if re = GoError.notExist then Sum.inl (some re, pre ++ rcalls)
            else Sum.inr (re, pre ++ rcalls)
        else Sum.inl (some e, pre)
    match afterStat with
    | Sum.inr (e, calls) => ⟨b, some e, calls⟩
    | Sum.inl (none, calls) =>
      match env.openRes with
      | (fd, none) =>
        ⟨{ b with fd := fd, fdLoaded := true }, none, calls ++ [.openByPin path]⟩
      | (fd, some e) =>
        ⟨{ b with fd := fd }, some e, calls ++ [.openByPin path]⟩
    | Sum.inl (some _, calls) =>
      match env.createErr with
      | some e => ⟨b, some e, calls ++ [b.createCall]⟩
      | none =>
        match env.openRes with
        | (fd, none) =>
          ⟨{ b with fd := fd, fdLoaded := true }, none,
            calls ++ [b.createCall, .openByPin path]⟩
        | (fd, some e) =>
          ⟨{ b with fd := fd }, some e, calls ++ [b.createCall, .openByPin path]⟩

/-- Outcome of a direct-kernel entry operation: either the `logrus.Panic`
with its message (reached before any kernel call), or the kernel call
that would be issued, carrying exactly the arguments passed to it. -/
inductive EntryOp (α : Type) where
  | panicOp (msg : String) : EntryOp α
  | kernelOp (args : α) : EntryOp α
  deriving DecidableEq

/-- Embeds `(*PinnedMap).Update`: panics on per-CPU maps, otherwise issues
`UpdateMapEntry(b.fd, k, v)` (the kernel call, represented by its
arguments). -/
def PinnedMap.Update (b : PinnedMap) (k v : List Nat) :
    EntryOp (Nat × List Nat × List Nat) :=
  if b.perCPU then .panicOp "Per-CPU operations not implemented"
  else .kernelOp (b.fd, k, v)

/-- Embeds `(*PinnedMap).Get`: panics on per-CPU maps, otherwise issues
`GetMapEntry(b.fd, k, b.ValueSize)`. -/
def PinnedMap.Get (b : PinnedMap) (k : List Nat) :
    EntryOp (Nat × List Nat × Int) :=
  if b.perCPU then .panicOp "Per-CPU operations not implemented"
  else .kernelOp (b.fd, k, b.params.ValueSize)

/-- Embeds `appendBytes(strings, bytes)`: append the decimal rendering of each
byte to the string slice, in order. -/
def appendBytes (strs : List String) (bytes : List Nat) : List String :=
  bytes.foldl (fun acc b => acc ++ [toString b]) strs

/-- Environment for `Delete`: the error `cmd.Output()` would return for
the `bpftool map delete` invocation (`none` = success). -/
structure DeleteEnv where
  execErr : Option GoError

/-- Embeds `(*PinnedMap).Delete`: builds the `bpftool` argument list from the
versioned pin path and the decimal-byte encoding of the key, runs the
tool, and maps an `*exec.ExitError` whose stderr contains
`"delete failed: No such file or directory"` to `os.ErrNotExist`; every
other failure is returned as-is.  The first component is the argument
list passed to the tool. -/
def PinnedMap.Delete (env : DeleteEnv) (b : PinnedMap) (k : List Nat) :
    List String × Option GoError :=
  let args :=
    appendBytes ["map", "delete", "pinned", b.params.versionedFilename, "key"] k
  match env.execErr with
  | none => (args, none)
  | some (.exitError stderr) =>
    if strContains stderr "delete failed: No such file or directory" then
      (args, some .notExist)
    else (args, some (.exitError stderr))
  | some e => (args, some e)

/-- Embeds `mapEntry`.  Modelled from the spec: the struct the dump JSON is
unmarshalled into is repository code outside the provided sources; per
the spec the dump is an ordered sequence of records each with a `key`
field and a `value` field, each an ordered sequence of textual byte
values. -/
structure mapEntry where
  Key : List String
  Value : List String
  deriving DecidableEq

/-- Value of a decimal digit character, `none` for a non-digit. -/
def decDigitVal (c : Char) : Option Nat :=
  if '0' ≤ c ∧ c ≤ '9' then some (c.toNat - '0'.toNat) else none

/-- Left-to-right decimal accumulation over a character list. -/
def decStringToNatAux : List Char → Nat → Option Nat
  | [], acc => some acc
  | c :: cs, acc =>
    match decDigitVal c with
    | none => none
    | some d => decStringToNatAux cs (acc * 10 + d)

/-- Decimal parse of a whole string; the empty string fails. -/
def decStringToNat (s : String) : Option Nat :=
  match s.toList with
  | [] => none
  | cs => decStringToNatAux cs 0

/-- Modelled from the spec: `hexStringsToBytes` is repository code
outside the provided sources; per the spec each field is decoded "from
an array of textual byte values into raw bytes", the textual values
being decimal strings of bytes (e.g. `"255"` decodes to `0xFF`).  A
string that is not the decimal rendering of a value below 256 fails. -/
def hexStringToByte (s : String) : Option Nat :=
  match decStringToNat s with
  | some n => if n < 256 then some n else none
  | none => none

/-- Modelled from the spec: decode a whole field, failing if any
element fails. -/
def hexStringsToBytes : List String → Option (List Nat)
  | [] => some []
  | s :: ss =>
    match hexStringToByte s with
    | none => none
    | some b =>
      match hexStringsToBytes ss with
      | none => none
      | some bs => some (b :: bs)

/-- Error outcomes of `IterMapCmdOutput`: a JSON parse failure carrying
the parse message and the offending output, or a key/value decode
failure carrying the record that failed. -/
inductive IterErr where
  | parseErr (msg : String) (output : String) : IterErr
  | keyErr (me : mapEntry) : IterErr
  | valErr (me : mapEntry) : IterErr
  deriving DecidableEq

/-- The record loop of `IterMapCmdOutput`: decode each record in order
and invoke the visitor on it; the visitor's invocations are returned as
the list of `(key, value)` byte pairs, in invocation order.  A decode
failure stops the loop with an error identifying the record; visits
already made before the failure are kept in the trace. -/
def iterRecords : List mapEntry → List (List Nat × List Nat) × Option IterErr
  | [] => ([], none)
  | me :: rest =>
    match hexStringsToBytes me.Key with
    | none => ([], some (.keyErr me))
    | some k =>
      match hexStringsToBytes me.Value with
      | none => ([], some (.valErr me))
      | some v =>
        let r := iterRecords rest
        ((k, v) :: r.1, r.2)

/-- Embeds `IterMapCmdOutput(output, f)`: unmarshal the dump output (the
behaviour of `json.Unmarshal` is supplied as a function) and run the
record loop; a parse failure yields an error and no visit. -/
def IterMapCmdOutput (unmarshal : String → Except String (List mapEntry))
    (output : String) : List (List Nat × List Nat) × Option IterErr :=
  match unmarshal output with
  | .error e => ([], some (.parseErr e output))
  | .ok mp => iterRecords mp

/-- Failures of `Iter`: the dump command itself failed, or
`IterMapCmdOutput` failed and its error was wrapped with the map
path (`errors.WithMessagef`). -/
inductive IterFailure where
  | dumpFailed (path : String) (e : GoError) (output : String) : IterFailure
  | mapWrapped (path : String) (e : IterErr) : IterFailure
  deriving DecidableEq

/-- Environment for `Iter`: the output and error of the
`bpftool map dump` invocation, and the `json.Unmarshal` behaviour. -/
structure IterEnv where
  dumpOut : String
  dumpErr : Option GoError
  unmarshal : String → Except String (List mapEntry)

/-- Embeds `(*PinnedMap).Iter`: dump the pinned map via the external tool and
feed the output to `IterMapCmdOutput`; a dump failure or a parse/decode
failure is reported, and the visitor's invocations are returned as a
trace. -/
def PinnedMap.Iter (env : IterEnv) (b : PinnedMap) :
    List (List Nat × List Nat) × Option IterFailure :=
  match env.dumpErr with
  | some e => ([], some (.dumpFailed b.params.versionedFilename e env.dumpOut))
  | none =>
    match IterMapCmdOutput env.unmarshal env.dumpOut with
    | (visits, none) => (visits, none)
    | (visits, some e) => (visits, some (.mapWrapped b.params.versionedFilename e))

/-! ## Helper lemmas -/

/-- Every call `RepinMap` can perform is a listing or a pin-by-id,
never a map creation. -/
theorem repinMap_calls_no_create (env : Env) (n f : String) :
    ∀ c ∈ (RepinMap env n f).2, c.isCreate = false := by
  unfold RepinMap
  cases h1 : env.listErr with
  | some e => simp [ExtCall.isCreate]
  | none =>
    cases h2 : env.listUnmarshal env.listOut with
    | error e => simp [ExtCall.isCreate]
    | ok maps =>
      cases h3 : maps.find? (fun m => m.Name == n) with
      | none => simp [h3, ExtCall.isCreate]
      | some m =>
        cases h4 : env.pinErr <;> simp [h3, h4, ExtCall.isCreate]

/-! ## Claims -/

/-- C5: for every name, filename and schema version v, if v ≤ 1 the
versioned name and filename are the name and filename unchanged, and if
v > 1 each is the base string concatenated with the decimal
representation of v. -/
theorem versionedStr_spec (mp : MapParameters) :
    (mp.Version ≤ 1 →
      mp.versionedName = mp.Name ∧ mp.versionedFilename = mp.Filename) ∧
    (1 < mp.Version →
      mp.versionedName = mp.Name ++ toString mp.Version ∧
      mp.versionedFilename = mp.Filename ++ toString mp.Version) := by
  unfold MapParameters.versionedName MapParameters.versionedFilename versionedStr
  constructor
  · intro h
    simp [h]
  · intro h
    rw [if_neg (by omega), if_neg (by omega)]
    exact ⟨rfl, rfl⟩

/-- Witness for C5 at version 2 and version 1. -/
theorem versionedStr_spec_witness :
    ((1 : Int) < 2 ∧
      (MapParameters.mk "felix_f" "hash" 4 4 10 "cali_v" 0 2).versionedName =
        "cali_v" ++ toString (2 : Int)) ∧
    ((1 : Int) ≤ 1 ∧
      (MapParameters.mk "felix_f" "hash" 4 4 10 "cali_v" 0 1).versionedName =
        "cali_v") :=
  ⟨⟨by decide, ((versionedStr_spec _).2 (by decide)).1⟩,
   ⟨by decide, ((versionedStr_spec _).1 (by decide)).1⟩⟩

/-- C2: `EnsureExists` on an already-open handle returns success
immediately, with the state unchanged and an empty external-call
trace. -/
theorem ensureExists_idempotent (env : Env) (b : PinnedMap)
    (h : b.fdLoaded = true) :
    b.EnsureExists env = ⟨b, none, []⟩ := by
  unfold PinnedMap.EnsureExists
  simp [h]

/-- Witness for C2: a concrete open handle, an environment in which
every external call would fail, and the unchanged result. -/
theorem ensureExists_idempotent_witness :
    (PinnedMap.mk ⟨true⟩ ⟨"felix_f", "hash", 4, 4, 10, "cali_v", 0, 2⟩ true 5 false).fdLoaded
      = true ∧
    PinnedMap.EnsureExists
      ⟨some (.other "boom"), some (.other "boom"), some (.other "boom"), "",
        some (.other "boom"), fun _ => .error "boom", some (.other "boom"),
        some (.other "boom"), (0, some (.other "boom"))⟩
      (PinnedMap.mk ⟨true⟩ ⟨"felix_f", "hash", 4, 4, 10, "cali_v", 0, 2⟩ true 5 false) =
      ⟨PinnedMap.mk ⟨true⟩ ⟨"felix_f", "hash", 4, 4, 10, "cali_v", 0, 2⟩ true 5 false,
        none, []⟩ :=
  ⟨rfl, ensureExists_idempotent _ _ rfl⟩

/-- C1: when the versioned pin path does not exist, repinning is
enabled, and the registry listing's (first) entry named exactly the
versioned name is `m`, `EnsureExists` pins `m`'s id to the versioned
pin path, opens the pin to obtain the descriptor, marks the handle
open, and never invokes the external map-creation interface. -/
theorem ensureExists_repins (env : Env) (b : PinnedMap) (m : bpftoolMapMeta)
    (maps : List bpftoolMapMeta) (fd : Nat)
    (hload : b.fdLoaded = false)
    (hmount : env.mountErr = none)
    (hmkdir : env.mkdirErr = none)
    (hstat : env.statErr = some .notExist)
    (hrepin : b.context.RepinningEnabled = true)
    (hlist : env.listErr = none)
    (hjson : env.listUnmarshal env.listOut = .ok maps)
    (hfind : maps.find? (fun mm => mm.Name == b.params.versionedName) = some m)
    (hpin : env.pinErr = none)
    (hopen : env.openRes = (fd, none)) :
    b.EnsureExists env =
      ⟨{ b with fd := fd, fdLoaded := true }, none,
        [.mount, .mkdir, .statCall b.params.versionedFilename, .mapList,
         .pinById m.ID b.params.versionedFilename,
         .openByPin b.params.versionedFilename]⟩ ∧
    ∀ c ∈ (b.EnsureExists env).calls, c.isCreate = false := by
  have hmain : b.EnsureExists env =
      ⟨{ b with fd := fd, fdLoaded := true }, none,
        [.mount, .mkdir, .statCall b.params.versionedFilename, .mapList,
         .pinById m.ID b.params.versionedFilename,
         .openByPin b.params.versionedFilename]⟩ := by
    unfold PinnedMap.EnsureExists RepinMap
    simp [hload, hmount, hmkdir, hstat, hrepin, hlist, hjson, hfind, hpin, hopen]
  refine ⟨hmain, ?_⟩
  rw [hmain]
  intro c hc
  fin_cases hc <;> rfl

/-- Witness for C1: the spec's scenario, with registry entry
`{id: 7, name: "cali_v2"}` matching versioned name `"cali_v2"`. -/
theorem ensureExists_repins_witness :
    PinnedMap.EnsureExists
      ⟨none, none, some .notExist, "listing", none,
        (fun _ => .ok [⟨7, "cali_v2"⟩]), none, some (.other "unused"), (9, none)⟩
      (PinnedMap.mk ⟨true⟩ ⟨"felix_f", "hash", 4, 4, 10, "cali_v", 0, 2⟩ false 0 false) =
      ⟨PinnedMap.mk ⟨true⟩ ⟨"felix_f", "hash", 4, 4, 10, "cali_v", 0, 2⟩ true 9 false,
        none,
        [.mount, .mkdir, .statCall "felix_f2", .mapList, .pinById 7 "felix_f2",
         .openByPin "felix_f2"]⟩ :=
  ((ensureExists_repins _ _ ⟨7, "cali_v2"⟩ [⟨7, "cali_v2"⟩] 9 rfl rfl rfl rfl rfl rfl rfl
        (by decide) rfl rfl).1).trans (by decide)

/-- C3: when the versioned pin path does not exist, repinning is
disabled, and creation succeeds, `EnsureExists` invokes the external
map-creation interface with the identity's kernel type, key/value
sizes, capacity, versioned name and flags, then opens the new pin at
the versioned filename and marks the handle open. -/
theorem ensureExists_creates (env : Env) (b : PinnedMap) (fd : Nat)
    (hload : b.fdLoaded = false)
    (hmount : env.mountErr = none)
    (hmkdir : env.mkdirErr = none)
    (hstat : env.statErr = some .notExist)
    (hrepin : b.context.RepinningEnabled = false)
    (hcreate : env.createErr = none)
    (hopen : env.openRes = (fd, none)) :
    b.EnsureExists env =
      ⟨{ b with fd := fd, fdLoaded := true }, none,
        [.mount, .mkdir, .statCall b.params.versionedFilename,
         .mapCreate b.params.versionedFilename b.params.«Type» b.params.KeySize
           b.params.ValueSize b.params.MaxEntries b.params.versionedName
           b.params.Flags,
         .openByPin b.params.versionedFilename]⟩ := by
  unfold PinnedMap.EnsureExists PinnedMap.createCall
  simp [hload, hmount, hmkdir, hstat, hrepin, hcreate, hopen]

/-- Witness for C3: concrete identity; creation and open succeed with
descriptor 11. -/
theorem ensureExists_creates_witness :
    PinnedMap.EnsureExists
      ⟨none, none, some .notExist, "", none, (fun _ => .error "unused"), none,
        none, (11, none)⟩
      (PinnedMap.mk ⟨false⟩ ⟨"felix_f", "hash", 4, 8, 10, "cali_v", 1, 2⟩ false 0 false) =
      ⟨PinnedMap.mk ⟨false⟩ ⟨"felix_f", "hash", 4, 8, 10, "cali_v", 1, 2⟩ true 11 false,
        none,
        [.mount, .mkdir, .statCall "felix_f2",
         .mapCreate "felix_f2" "hash" 4 8 10 "cali_v2" 1,
         .openByPin "felix_f2"]⟩ :=
  (ensureExists_creates _ _ 11 rfl rfl rfl rfl rfl rfl rfl).trans (by decide)

/-- C4: when stat on the versioned pin path fails with an error other
than not-found, or the repin resolver fails with an error other than
not-found, `EnsureExists` returns that error and never invokes the
external map-creation interface. -/
theorem ensureExists_no_create_on_failure (env : Env) (b : PinnedMap)
    (e : GoError)
    (hload : b.fdLoaded = false)
    (hmount : env.mountErr = none)
    (hmkdir : env.mkdirErr = none)
    (hne : e ≠ .notExist)
    (h : env.statErr = some e ∨
      (env.statErr = some .notExist ∧ b.context.RepinningEnabled = true ∧
        (RepinMap env b.params.versionedName b.params.versionedFilename).1 =
          some e)) :
    (b.EnsureExists env).error = some e ∧
    ∀ c ∈ (b.EnsureExists env).calls, c.isCreate = false := by
  rcases h with hstat | ⟨hstat, hrepin, hrm⟩
  · have hmain : b.EnsureExists env =
        ⟨b, some e, [.mount, .mkdir, .statCall b.params.versionedFilename]⟩ := by
      unfold PinnedMap.EnsureExists
      simp [hload, hmount, hmkdir, hstat, hne]
    rw [hmain]
    exact ⟨rfl, by intro c hc; fin_cases hc <;> rfl⟩
  · rcases hRM : RepinMap env b.params.versionedName b.params.versionedFilename
      with ⟨r, rcalls⟩
    rw [hRM] at hrm
    simp only at hrm
    subst hrm
    have hmain : b.EnsureExists env =
        ⟨b, some e,
          [.mount, .mkdir, .statCall b.params.versionedFilename] ++ rcalls⟩ := by
      unfold PinnedMap.EnsureExists
      simp [hload, hmount, hmkdir, hstat, hrepin, hRM, hne]
    rw [hmain]
    refine ⟨rfl, ?_⟩
    intro c hc
    simp only [List.mem_append] at hc
    rcases hc with hc | hc
    · fin_cases hc <;> rfl
    · have := repinMap_calls_no_create env b.params.versionedName
        b.params.versionedFilename c
      rw [hRM] at this
      exact this hc

/-- Witness for C4: a stat failure with a permission error aborts
without creation. -/
theorem ensureExists_no_create_on_failure_witness :
    (PinnedMap.EnsureExists
        ⟨none, none, some (.other "permission denied"), "", none,
          (fun _ => .error "unused"), none, none, (0, none)⟩
        (PinnedMap.mk ⟨true⟩ ⟨"felix_f", "hash", 4, 4, 10, "cali_v", 0, 2⟩ false 0 false)).error =
      some (.other "permission denied") ∧
    ∀ c ∈ (PinnedMap.EnsureExists
        ⟨none, none, some (.other "permission denied"), "", none,
          (fun _ => .error "unused"), none, none, (0, none)⟩
        (PinnedMap.mk ⟨true⟩ ⟨"felix_f", "hash", 4, 4, 10, "cali_v", 0, 2⟩ false 0 false)).calls,
      c.isCreate = false :=
  ensureExists_no_create_on_failure _ _ (.other "permission denied") rfl rfl rfl
    (by decide) (Or.inl rfl)

/-- Helper for C10: the handle ends up marked open exactly when
`EnsureExists` returns success. -/
theorem ensureExists_loaded_iff_ok (env : Env) (b : PinnedMap) :
    ((b.EnsureExists env).state.fdLoaded = true ↔
      (b.EnsureExists env).error = none) := by
  unfold PinnedMap.EnsureExists
  split
  · next h => simp [h]
  · cases hm : env.mountErr with
    | some e =>
      next h => simp [h, hm]
    | none =>
      cases hk : env.mkdirErr with
      | some e =>
        next h => simp [h, hk]
      | none =>
        next h =>
          simp only [h, hk]
          cases hs : env.statErr with
          | none =>
            rcases ho : env.openRes with ⟨fd, oe⟩
            cases oe <;> simp [h, ho]
          | some e =>
            by_cases hne : e = GoError.notExist
            · subst hne
              cases hrep : b.context.RepinningEnabled with
              | false =>
                cases hc : env.createErr with
                | some ce => simp [h, hrep, hc]
                | none =>
                  rcases ho : env.openRes with ⟨fd, oe⟩
                  cases oe <;> simp [h, hrep, hc, ho]
              | true =>
                rcases hRM : RepinMap env b.params.versionedName
                    b.params.versionedFilename with ⟨r, rcalls⟩
                cases r with
                | none =>
                  rcases ho : env.openRes with ⟨fd, oe⟩
                  cases oe <;> simp [h, hrep, hRM, ho]
                | some re =>
                  by_cases hre : re = GoError.notExist
                  · subst hre
                    cases hc : env.createErr with
                    | some ce => simp [h, hrep, hRM, hc]
                    | none =>
                      rcases ho : env.openRes with ⟨fd, oe⟩
                      cases oe <;> simp [h, hrep, hRM, hc, ho]
                  · simp [h, hrep, hRM, hre]
            · simp [h, hne]

/-- C10: `EnsureExists` is atomic with respect to the open state: the
handle is marked open iff the call returned success, and after any
failing call `MapFD` still fails with the usage error. -/
theorem ensureExists_atomic (env : Env) (b : PinnedMap) :
    ((b.EnsureExists env).state.fdLoaded = true ↔
      (b.EnsureExists env).error = none) ∧
    ((b.EnsureExists env).error ≠ none →
      (b.EnsureExists env).state.MapFD =
        Except.error "MapFD() called without first calling EnsureExists()") := by
  have h := ensureExists_loaded_iff_ok env b
  refine ⟨h, fun hne => ?_⟩
  have hfd : (b.EnsureExists env).state.fdLoaded = false := by
    cases hl : (b.EnsureExists env).state.fdLoaded
    · rfl
    · exact absurd (h.mp hl) hne
  simp [PinnedMap.MapFD, hfd]

/-- Witness for C10: after a failing `EnsureExists` (the pin exists but
opening it fails), `MapFD` still fails with the usage error. -/
theorem ensureExists_atomic_witness :
    (PinnedMap.EnsureExists
        ⟨none, none, none, "", none, (fun _ => .error "unused"), none, none,
          (0, some (.other "open failed"))⟩
        (PinnedMap.mk ⟨true⟩ ⟨"felix_f", "hash", 4, 4, 10, "cali_v", 0, 2⟩ false 0 false)).state.MapFD =
      Except.error "MapFD() called without first calling EnsureExists()" :=
  (ensureExists_atomic _ _).2 (by decide)

/-- The decoded `(key, value)` byte pair of a record whose fields both
decode. -/
def decodeEntry (me : mapEntry) : List Nat × List Nat :=
  ((hexStringsToBytes me.Key).getD [], (hexStringsToBytes me.Value).getD [])

/-- Helper: the record loop on a fully decodable document visits every
record in order, with no error. -/
theorem iterRecords_all_ok (mp : List mapEntry)
    (h : ∀ me ∈ mp, (hexStringsToBytes me.Key).isSome ∧
      (hexStringsToBytes me.Value).isSome) :
    iterRecords mp = (mp.map decodeEntry, none) := by
  induction mp with
  | nil => simp [iterRecords]
  | cons me rest ih =>
    obtain ⟨hk, hv⟩ := h me (by simp)
    obtain ⟨k, hk'⟩ := Option.isSome_iff_exists.mp hk
    obtain ⟨v, hv'⟩ := Option.isSome_iff_exists.mp hv
    have := ih (fun x hx => h x (by simp [hx]))
    simp [iterRecords, hk', hv', this, decodeEntry]

/-- Helper: the record loop on `pre ++ rest`, with every record of
`pre` decodable, visits `pre` and then behaves as the loop on
`rest`. -/
theorem iterRecords_append (pre rest : List mapEntry)
    (h : ∀ me ∈ pre, (hexStringsToBytes me.Key).isSome ∧
      (hexStringsToBytes me.Value).isSome) :
    iterRecords (pre ++ rest) =
      (pre.map decodeEntry ++ (iterRecords rest).1, (iterRecords rest).2) := by
  induction pre with
  | nil => simp [iterRecords]
  | cons me pre' ih =>
    obtain ⟨hk, hv⟩ := h me (by simp)
    obtain ⟨k, hk'⟩ := Option.isSome_iff_exists.mp hk
    obtain ⟨v, hv'⟩ := Option.isSome_iff_exists.mp hv
    have := ih (fun x hx => h x (by simp [hx]))
    simp [iterRecords, hk', hv', this, decodeEntry]

/-- C6: on a well-formed dump document (dump succeeded, JSON parsed,
every record decodable), `Iter` invokes the visitor exactly once per
record, in document order, with the decoded key and value bytes. -/
theorem iter_visits_in_order (env : IterEnv) (b : PinnedMap)
    (mp : List mapEntry)
    (hdump : env.dumpErr = none)
    (hparse : env.unmarshal env.dumpOut = .ok mp)
    (hdec : ∀ me ∈ mp, (hexStringsToBytes me.Key).isSome ∧
      (hexStringsToBytes me.Value).isSome) :
    b.Iter env = (mp.map decodeEntry, none) := by
  unfold PinnedMap.Iter IterMapCmdOutput
  simp [hdump, hparse, iterRecords_all_ok mp hdec]

/-- Witness for C6: the document with one record, key `["1","2"]` and
value `["255"]`, yields exactly one visit with key bytes `[1, 2]` and
value bytes `[255]`. -/
theorem iter_visits_in_order_witness :
    PinnedMap.Iter
      ⟨"json", none, fun _ => .ok [⟨["1", "2"], ["255"]⟩]⟩
      (PinnedMap.mk ⟨false⟩ ⟨"felix_f", "hash", 2, 1, 10, "cali_v", 0, 2⟩ true 5 false) =
      ([([1, 2], [255])], none) :=
  (iter_visits_in_order _ _ [⟨["1", "2"], ["255"]⟩] rfl rfl (by decide)).trans
    (by decide)

/-- C7: when the dump output does not parse as the expected record
sequence, `Iter` fails with an error identifying the parse failure and
the visitor is never invoked; and a record whose key or value cannot be
decoded aborts the iteration with an error identifying that record. -/
theorem iter_aborts_on_bad_input (env : IterEnv) (b : PinnedMap)
    (hdump : env.dumpErr = none) :
    (∀ msg, env.unmarshal env.dumpOut = .error msg →
      b.Iter env = ([], some (.mapWrapped b.params.versionedFilename
        (.parseErr msg env.dumpOut)))) ∧
    (∀ pre me rest, env.unmarshal env.dumpOut = .ok (pre ++ me :: rest) →
      (∀ p ∈ pre, (hexStringsToBytes p.Key).isSome ∧
        (hexStringsToBytes p.Value).isSome) →
      (hexStringsToBytes me.Key = none →
        b.Iter env = (pre.map decodeEntry,
          some (.mapWrapped b.params.versionedFilename (.keyErr me)))) ∧
      (∀ k, hexStringsToBytes me.Key = some k →
        hexStringsToBytes me.Value = none →
        b.Iter env = (pre.map decodeEntry,
          some (.mapWrapped b.params.versionedFilename (.valErr me))))) := by
  constructor
  · intro msg hmsg
    unfold PinnedMap.Iter IterMapCmdOutput
    simp [hdump, hmsg]
  · intro pre me rest hparse hpre
    constructor
    · intro hkey
      unfold PinnedMap.Iter IterMapCmdOutput
      simp only [hdump, hparse]
      rw [iterRecords_append pre (me :: rest) hpre]
      simp [iterRecords, hkey]
    · intro k hkey hval
      unfold PinnedMap.Iter IterMapCmdOutput
      simp only [hdump, hparse]
      rw [iterRecords_append pre (me :: rest) hpre]
      simp [iterRecords, hkey, hval]

/-- Witness for C7: malformed JSON produces a parse error naming the
failure, with no visit; and a record with undecodable key aborts naming
that record. -/
theorem iter_aborts_on_bad_input_witness :
    PinnedMap.Iter
      ⟨"not json", none, fun _ => .error "invalid character"⟩
      (PinnedMap.mk ⟨false⟩ ⟨"felix_f", "hash", 2, 1, 10, "cali_v", 0, 2⟩ true 5 false) =
      ([], some (.mapWrapped "felix_f2"
        (.parseErr "invalid character" "not json"))) :=
  ((iter_aborts_on_bad_input _ _ rfl).1 "invalid character" rfl).trans (by decide)

/-- C8: on a handle constructed from a per-CPU kernel type, `Update`
and `Get` fail with the fatal usage error before any kernel call,
whatever the key and value. -/
theorem percpu_ops_panic (c : MapContext) (params : MapParameters)
    (b : PinnedMap) (k v : List Nat)
    (hper : strContains params.«Type» "percpu" = true)
    (hnew : c.NewPinnedMap params = some b) :
    b.Update k v = .panicOp "Per-CPU operations not implemented" ∧
    b.Get k = .panicOp "Per-CPU operations not implemented" := by
  unfold MapContext.NewPinnedMap at hnew
  split at hnew
  · exact absurd hnew (by simp)
  · cases hnew
    simp [PinnedMap.Update, PinnedMap.Get, hper]

/-- Witness for C8: a concrete per-CPU handle. -/
theorem percpu_ops_panic_witness :
    PinnedMap.Update
        (PinnedMap.mk ⟨false⟩ ⟨"felix_f", "percpu_hash", 4, 4, 10, "cali_ct", 0, 1⟩
          false 0 true) [1] [2] =
      .panicOp "Per-CPU operations not implemented" ∧
    PinnedMap.Get
        (PinnedMap.mk ⟨false⟩ ⟨"felix_f", "percpu_hash", 4, 4, 10, "cali_ct", 0, 1⟩
          false 0 true) [1] =
      .panicOp "Per-CPU operations not implemented" :=
  percpu_ops_panic ⟨false⟩ ⟨"felix_f", "percpu_hash", 4, 4, 10, "cali_ct", 0, 1⟩ _
    [1] [2] (by decide) (by decide)

/-- Helper: the Go append loop of `appendBytes` equals appending the
decimal renderings. -/
theorem appendBytes_eq_append_map (bytes : List Nat) :
    ∀ strs, appendBytes strs bytes =
      strs ++ bytes.map (fun n => toString n) := by
  induction bytes with
  | nil => intro strs; simp [appendBytes]
  | cons hd tl ih =>
    intro strs
    have hstep : appendBytes strs (hd :: tl) =
        appendBytes (strs ++ [toString hd]) tl := rfl
    rw [hstep, ih]
    simp

/-- C9: `Delete` passes the versioned pin path and the decimal-byte
encoding of the key to the external tool; an exit failure whose stderr
contains the distinguished diagnostic yields the not-found outcome,
while any other failure is returned as-is. -/
theorem delete_not_found_outcome (env : DeleteEnv) (b : PinnedMap)
    (k : List Nat) :
    (b.Delete env k).1 =
      ["map", "delete", "pinned", b.params.versionedFilename, "key"] ++
        k.map (fun n => toString n) ∧
    (∀ s, env.execErr = some (.exitError s) →
      strContains s "delete failed: No such file or directory" = true →
      (b.Delete env k).2 = some .notExist) ∧
    (∀ e, env.execErr = some e →
      (∀ s, e = .exitError s →
        strContains s "delete failed: No such file or directory" = false) →
      (b.Delete env k).2 = some e) := by
  refine ⟨?_, ?_, ?_⟩
  · have h1 : (b.Delete env k).1 =
        appendBytes ["map", "delete", "pinned", b.params.versionedFilename,
          "key"] k := by
      unfold PinnedMap.Delete
      obtain ⟨ee⟩ := env
      rcases ee with _ | e
      · rfl
      · rcases e with _ | s | m
        · rfl
        · dsimp only
          split <;> rfl
        · rfl
    rw [h1, appendBytes_eq_append_map]
  · intro s hs hc
    unfold PinnedMap.Delete
    simp [hs, hc]
  · intro e he hother
    unfold PinnedMap.Delete
    rcases e with _ | s | m
    · simp [he]
    · simp [he, hother s rfl]
    · simp [he]

/-- Witness for C9: stderr carrying the diagnostic maps to
`os.ErrNotExist`, and the argument list carries path and decimal
bytes. -/
theorem delete_not_found_outcome_witness :
    (PinnedMap.Delete
        ⟨some (.exitError "Error: delete failed: No such file or directory")⟩
        (PinnedMap.mk ⟨false⟩ ⟨"felix_f", "hash", 2, 1, 10, "cali_v", 0, 2⟩ true 5 false)
        [0, 255]).2 =
      some .notExist ∧
    (PinnedMap.Delete
        ⟨some (.exitError "Error: delete failed: No such file or directory")⟩
        (PinnedMap.mk ⟨false⟩ ⟨"felix_f", "hash", 2, 1, 10, "cali_v", 0, 2⟩ true 5 false)
        [0, 255]).1 =
      ["map", "delete", "pinned", "felix_f2", "key", "0", "255"] :=
  ⟨(delete_not_found_outcome
      ⟨some (.exitError "Error: delete failed: No such file or directory")⟩ _
      [0, 255]).2.1 _ rfl (by decide),
   ((delete_not_found_outcome
      ⟨some (.exitError "Error: delete failed: No such file or directory")⟩ _
      [0, 255]).1).trans (by decide)⟩

end Felix
